import Mathlib

/-!
Verification of the per-file image recompression pipeline in
`compress_jpegs.py` (functions `has_transparency`, `iter_images`,
`compress_dir`, `compress_dir_with_progress`, and the quality check of the
GUI entry point `run_gui.run`).

The embedding keeps the Python structure: PIL images become a record of the
fields the pipeline inspects (mode string, alpha channel samples, the
`"transparency" in img.info` flag, and the optional `exif` / `icc_profile`
blobs); files on disk become a `FileData` record (byte size, decoded image
when decodable, modification time); the external PIL encoders are an
abstract `Codec` whose PNG encoder is lossless (a decoded PNG yields back
the encoded image, which is the documented behaviour of the format).
-/

namespace CompressJpegs

/-- Raw metadata blobs (EXIF / ICC) are abstract byte strings. -/
abbrev Bytes := List Nat

/-- The fields of a PIL image that `compress_jpegs.py` reads: `img.mode`,
the alpha channel samples of `img.getchannel "A"`, whether
`"transparency" in img.info`, and `img.info.get "exif"` /
`img.info.get "icc_profile"`. -/
structure PILImage where
  mode : String
  alpha : List Nat
  infoHasTransparencyKey : Bool
  infoExif : Option Bytes
  infoIcc : Option Bytes
  deriving Repr, DecidableEq

/-- A file on disk: its byte size (`os.path.getsize`), the image it decodes
to (`none` when `Image.open` raises), and its metadata (modification time,
what `shutil.copy2` preserves beyond the bytes). -/
structure FileData where
  size : Nat
  image : Option PILImage
  mtime : Nat
  deriving Repr, DecidableEq

/-- A source file inside the source directory, split as
`base, ext = os.path.splitext(name)`; the on-disk name is `base ++ ext`. -/
structure SrcFile where
  base : String
  ext : String
  content : FileData
  deriving Repr, DecidableEq

/-- The on-disk file name, `os.path.basename(path)`. -/
def SrcFile.name (f : SrcFile) : String := f.base ++ f.ext

/-- ASCII lowercasing of a string, modelling Python's `str.lower()` on the
file extensions the tool routes on (all ASCII). -/
def strLower (s : String) : String := ⟨s.data.map Char.toLower⟩

/-- The external PIL encoders, abstracted.  `pngEncode img optimize
compress_level` models `img.save(out, format="PNG", optimize=...,
compress_level=...)`; `jpegEncode img quality optimize progressive exif icc`
models the JPEG `img.save` call.  PNG is a lossless container: decoding the
written file yields back the encoded image. -/
structure Codec where
  pngEncode : PILImage → Bool → Nat → FileData
  jpegEncode : PILImage → Int → Bool → Bool → Option Bytes → Option Bytes → FileData
  pngLossless : ∀ img opt lvl, (pngEncode img opt lvl).image = some img

/-- Models `alpha.getextrema()[0]`: the minimum over the 8-bit alpha
samples (255, the fully opaque value, for the vacuous image). -/
def alphaExtremaMin (alpha : List Nat) : Nat := alpha.foldr min 255

/-- Direct translation of `has_transparency` (compress_jpegs.py lines
21-27). -/
def has_transparency (img : PILImage) : Bool :=
  if img.mode == "RGBA" || img.mode == "LA" then
    decide (alphaExtremaMin img.alpha < 255)
  else if img.mode == "P" then
    img.infoHasTransparencyKey
  else
    false

/-- Membership test `img.mode in ("RGB", "L")`. -/
def modeIsRgbOrL (m : String) : Bool := m == "RGB" || m == "L"

/-- Conversion `img.convert("RGB")`: the mode becomes `"RGB"`, the alpha channel is
dropped, and the `info` dictionary (exif, icc, transparency key) is carried
over, as PIL's `Image.convert` does. -/
def convertRGB (img : PILImage) : PILImage :=
  { img with mode := "RGB", alpha := [] }

/-- The mode normalisation both JPEG routes apply:
`if img.mode not in ("RGB", "L"): img = img.convert("RGB")`. -/
def toJpegMode (img : PILImage) : PILImage :=
  if modeIsRgbOrL img.mode then img else convertRGB img

/-- Extension recognised by `iter_images`:
`ext.lower() in (".jpg", ".jpeg", ".png")`. -/
def recognizedExt (ext : String) : Bool :=
  let l := strLower ext
  l == ".jpg" || l == ".jpeg" || l == ".png"

/-- The routing decision of lines 44-59: where the transcoded artifact is
written (`out_path`), whether the JPEG encoder will run (`out_is_jpeg`),
the image after the PNG-branch conversion, and whether the PNG encoder
already ran inside the branch (line 53). -/
structure TranscodePlan where
  outPath : String
  outIsJpeg : Bool
  img : PILImage
  pngSaved : Bool
  deriving Repr, DecidableEq

/-- Lines 44-59 of `compress_dir_with_progress`, for one opened image. -/
def transcodePlan (dstDir : String) (src : SrcFile) (img0 : PILImage) :
    TranscodePlan :=
  let name := src.base ++ src.ext
  let ext := strLower src.ext
  let outIsJpeg0 := ext == ".jpg" || ext == ".jpeg"
  if ext == ".png" then
    if has_transparency img0 then
      { outPath := dstDir ++ "/" ++ src.base ++ ".png", outIsJpeg := false,
        img := img0, pngSaved := true }
    else
      { outPath := dstDir ++ "/" ++ src.base ++ ".jpg", outIsJpeg := true,
        img := if modeIsRgbOrL img0.mode then img0 else convertRGB img0,
        pngSaved := false }
  else
    { outPath := dstDir ++ "/" ++ name, outIsJpeg := outIsJpeg0,
      img := img0, pngSaved := false }

/-- Result of processing one file: where the transcoder wrote its artifact
and what it wrote, the final output path and content after the Guard,
which path the Guard removed (if any), and whether the fallback copy
replaced the artifact. -/
structure FileResult where
  artifactPath : String
  artifactData : FileData
  outPath : String
  outData : FileData
  removed : Option String
  fallbackUsed : Bool
  deriving Repr, DecidableEq

/-- Lines 43-83 of `compress_dir_with_progress`: the body of the per-file
loop.  `Except.error` models an exception escaping the loop body
(`Image.open` failing on an undecodable file, or `os.path.getsize` on an
output that was never written).  `removeFails` says whether the
`os.remove` of an oversized renamed artifact raises `OSError` (which the
code swallows). -/
def processFile (c : Codec) (dstDir : String) (quality : Int)
    (removeFails : Bool) (src : SrcFile) : Except String FileResult :=
  let name := src.base ++ src.ext
  let origPath := dstDir ++ "/" ++ name
  match src.content.image with
  | none => .error name
  | some img0 =>
    let p := transcodePlan dstDir src img0
    let img2 := if p.outIsJpeg && !(modeIsRgbOrL p.img.mode)
                then convertRGB p.img else p.img
    let exif := img2.infoExif
    let icc := img2.infoIcc
    let artifactWritten : Option FileData :=
      if p.pngSaved then some (c.pngEncode p.img true 9)
      else if p.outIsJpeg then
        some (c.jpegEncode img2 quality true true exif icc)
      else none
    match artifactWritten with
    | none => .error name
    | some artifact =>
      if artifact.size > src.content.size then
        .ok { artifactPath := p.outPath, artifactData := artifact,
              outPath := origPath, outData := src.content,
              removed := if p.outPath != origPath && !removeFails
                         then some p.outPath else none,
              fallbackUsed := true }
      else
        .ok { artifactPath := p.outPath, artifactData := artifact,
              outPath := p.outPath, outData := artifact,
              removed := none, fallbackUsed := false }

/-- One invocation of the progress callback: the arguments of
`progress_cb(0, total)` (before the loop, `step` absent) and
`progress_cb(1, total, step=True)` (after each file). -/
structure ProgressCall where
  delta : Nat
  total : Nat
  step : Bool
  deriving Repr, DecidableEq

/-- One entry of `os.listdir(src_dir)`: whether it is a regular file, and
the file it denotes. -/
structure DirEntry where
  isFile : Bool
  file : SrcFile
  deriving Repr, DecidableEq

/-- Translation of `iter_images` (lines 11-18): keep the regular files whose lowercased
extension is `.jpg`, `.jpeg` or `.png`. -/
def iterImages (entries : List DirEntry) : List SrcFile :=
  (entries.filter (fun e => e.isFile && recognizedExt e.file.ext)).map
    (fun e => e.file)

/-- The per-file loop of `compress_dir_with_progress` (lines 43-86).
Returns the progress calls made inside the loop, the per-file results, and
`some name` when the exception raised while processing `name` escaped the
loop (aborting it: nothing after that file runs). -/
def batchLoop (c : Codec) (dstDir : String) (quality : Int)
    (removeFails : Bool) (hasCb : Bool) (total : Nat) :
    List SrcFile → List ProgressCall × List FileResult × Option String
  | [] => ([], [], none)
  | f :: fs =>
    match processFile c dstDir quality removeFails f with
    | .error e => ([], [], some e)
    | .ok r =>
      let rest := batchLoop c dstDir quality removeFails hasCb total fs
      ((if hasCb then [⟨1, total, true⟩] else []) ++ rest.1,
       r :: rest.2.1, rest.2.2)

/-- The observable outcome of `compress_dir_with_progress`: the full
progress-call trace, the per-file results, the escaped exception (if any),
and the returned `(count, src_bytes, dst_bytes)` triple of lines 87-89. -/
structure BatchResult where
  progress : List ProgressCall
  results : List FileResult
  error : Option String
  fileCount : Nat
  totalSrcBytes : Nat
  totalOutBytes : Nat
  deriving Repr, DecidableEq

/-- Translation of `compress_dir_with_progress` (lines 34-89).  `hasCb` is whether
`progress_cb` is not `None`.  When `error` is set the summary fields are
those the function would have returned had it completed; the Python
function raises instead of returning them. -/
def runBatch (c : Codec) (dstDir : String) (quality : Int)
    (removeFails : Bool) (hasCb : Bool) (entries : List DirEntry) :
    BatchResult :=
  let files := iterImages entries
  let total := files.length
  let headCall : List ProgressCall := if hasCb then [⟨0, total, false⟩] else []
  let res := batchLoop c dstDir quality removeFails hasCb total files
  { progress := headCall ++ res.1
    results := res.2.1
    error := res.2.2
    fileCount := files.length
    totalSrcBytes := (files.map (fun f => f.content.size)).sum
    totalOutBytes := (res.2.1.map (fun r => r.outData.size)).sum }

/-- Translation of `compress_dir` (lines 30-31), the CLI path: `compress_dir_with_progress`
with `progress_cb = None` and no quality validation anywhere on the way
(`main` → `run_cli` → here). -/
def compress_dir (c : Codec) (dstDir : String) (quality : Int)
    (removeFails : Bool) (entries : List DirEntry) : BatchResult :=
  runBatch c dstDir quality removeFails false entries

/-- The quality gate of the GUI entry point `run_gui.run` (lines 177-179):
`if quality < 1 or quality > 95:` show an error and return — the worker
(which runs `compress_dir_with_progress`) is only started otherwise. -/
def guiRun (c : Codec) (dstDir : String) (removeFails : Bool)
    (entries : List DirEntry) (quality : Int) : Option BatchResult :=
  if quality < 1 ∨ quality > 95 then none
  else some (runBatch c dstDir quality removeFails true entries)

/-! ### Concrete data used by the witnesses -/

/-- A plain RGB image carrying an EXIF blob but no ICC profile. -/
def sampleRgbImage : PILImage :=
  { mode := "RGB", alpha := [], infoHasTransparencyKey := false,
    infoExif := some [1, 2, 3], infoIcc := none }

/-- An RGBA image with one fully transparent pixel. -/
def sampleTransparentImage : PILImage :=
  { mode := "RGBA", alpha := [255, 0, 255], infoHasTransparencyKey := false,
    infoExif := none, infoIcc := none }

/-- An RGBA image whose alpha channel is fully opaque. -/
def sampleOpaqueAlphaImage : PILImage :=
  { mode := "RGBA", alpha := [255, 255, 255],
    infoHasTransparencyKey := false, infoExif := none, infoIcc := none }

/-- A decodable 100-byte `.jpg` source file. -/
def sampleJpgFile : SrcFile :=
  { base := "a", ext := ".jpg",
    content := { size := 100, image := some sampleRgbImage, mtime := 5 } }

/-- A decodable 100-byte `.png` source whose alpha channel is opaque. -/
def samplePngOpaqueFile : SrcFile :=
  { base := "b", ext := ".png",
    content := { size := 100, image := some sampleOpaqueAlphaImage,
                 mtime := 5 } }

/-- A decodable 100-byte `.png` source with real transparency. -/
def samplePngTransparentFile : SrcFile :=
  { base := "t", ext := ".png",
    content := { size := 100, image := some sampleTransparentImage,
                 mtime := 5 } }

/-- A `.png` file that `Image.open` cannot decode. -/
def sampleBadFile : SrcFile :=
  { base := "bad", ext := ".png",
    content := { size := 10, image := none, mtime := 3 } }

/-- A codec whose encodes are always 1 byte: never triggers the Guard. -/
def smallCodec : Codec where
  pngEncode img _ _ := { size := 1, image := some img, mtime := 7 }
  jpegEncode _ _ _ _ _ _ := { size := 1, image := none, mtime := 7 }
  pngLossless := fun _ _ _ => rfl

/-- A codec whose encodes are always 1000 bytes: always triggers the
Guard on the 100-byte sample files. -/
def bigCodec : Codec where
  pngEncode img _ _ := { size := 1000, image := some img, mtime := 9 }
  jpegEncode _ _ _ _ _ _ := { size := 1000, image := none, mtime := 9 }
  pngLossless := fun _ _ _ => rfl

/-! ### Supporting lemmas -/

/-- The fold modelling `getextrema()[0]` dips below 255 exactly when some
alpha sample is below 255. -/
theorem alphaExtremaMin_lt_iff (l : List Nat) :
    alphaExtremaMin l < 255 ↔ ∃ a ∈ l, a < 255 := by
  induction l with
  | nil => simp [alphaExtremaMin]
  | cons a l ih =>
    constructor
    · intro h
      rcases min_lt_iff.mp h with h | h
      · exact ⟨a, List.mem_cons_self a l, h⟩
      · obtain ⟨x, hx, hlt⟩ := ih.mp h
        exact ⟨x, List.mem_cons_of_mem a hx, hlt⟩
    · rintro ⟨x, hx, hlt⟩
      rcases List.mem_cons.mp hx with rfl | hx
      · exact min_lt_iff.mpr (Or.inl hlt)
      · exact min_lt_iff.mpr (Or.inr (ih.mpr ⟨x, hx, hlt⟩))

/-- The JPEG-route mode normalisation always lands on mode `"RGB"` or
`"L"`. -/
theorem toJpegMode_mode_cases (img : PILImage) :
    (toJpegMode img).mode = "RGB" ∨ (img.mode = "L" ∧ toJpegMode img = img) := by
  unfold toJpegMode modeIsRgbOrL
  by_cases h1 : img.mode = "RGB"
  · simp [h1]
  · by_cases h2 : img.mode = "L"
    · simp [h1, h2]
    · simp [h1, h2, convertRGB]

/-- Mode normalisation never touches the EXIF blob (PIL's `convert` keeps
the `info` dictionary). -/
theorem toJpegMode_infoExif (img : PILImage) :
    (toJpegMode img).infoExif = img.infoExif := by
  unfold toJpegMode convertRGB
  split <;> rfl

/-- Mode normalisation never touches the ICC blob. -/
theorem toJpegMode_infoIcc (img : PILImage) :
    (toJpegMode img).infoIcc = img.infoIcc := by
  unfold toJpegMode convertRGB
  split <;> rfl

/-- After normalisation the mode test of line 61 is passed, so the second
conversion site leaves the image alone. -/
theorem modeIsRgbOrL_toJpegMode (img : PILImage) :
    modeIsRgbOrL (toJpegMode img).mode = true := by
  unfold toJpegMode
  cases h : modeIsRgbOrL img.mode
  · simp [h, convertRGB, modeIsRgbOrL]
  · simp [h]

/-- Routing for a `.png` source with real transparency (lines 50-54). -/
theorem transcodePlan_png_transparent (dstDir : String) (src : SrcFile)
    (img0 : PILImage) (hext : strLower src.ext = ".png")
    (htr : has_transparency img0 = true) :
    transcodePlan dstDir src img0 =
      { outPath := dstDir ++ "/" ++ src.base ++ ".png", outIsJpeg := false,
        img := img0, pngSaved := true } := by
  unfold transcodePlan
  simp [hext, htr]

/-- Routing for a `.png` source with no transparency (lines 55-59). -/
theorem transcodePlan_opaque_png (dstDir : String) (src : SrcFile)
    (img0 : PILImage) (hext : strLower src.ext = ".png")
    (htr : has_transparency img0 = false) :
    transcodePlan dstDir src img0 =
      { outPath := dstDir ++ "/" ++ src.base ++ ".jpg", outIsJpeg := true,
        img := toJpegMode img0, pngSaved := false } := by
  unfold transcodePlan toJpegMode
  simp [hext, htr]

/-- Routing for a non-`.png` source (the `out_path`/`out_is_jpeg` defaults
of lines 47-48 stand). -/
theorem transcodePlan_not_png (dstDir : String) (src : SrcFile)
    (img0 : PILImage) (hext : strLower src.ext ≠ ".png") :
    transcodePlan dstDir src img0 =
      { outPath := dstDir ++ "/" ++ (src.base ++ src.ext),
        outIsJpeg := (strLower src.ext == ".jpg" || strLower src.ext == ".jpeg"),
        img := img0, pngSaved := false } := by
  unfold transcodePlan
  simp [hext]

/-! ### Claim C4 -/

/-- Claim C4: the Inspector's transparency flag is true iff either the
mode carries an alpha channel (`"RGBA"` or `"LA"`) and some pixel's alpha
is below the fully-opaque 255, or the mode is palette-indexed (`"P"`) and
the transparency marker is present in `img.info`; every other mode yields
false. -/
theorem C4_inspector_transparency_rule (img : PILImage) :
    has_transparency img = true ↔
      ((img.mode = "RGBA" ∨ img.mode = "LA") ∧ ∃ a ∈ img.alpha, a < 255) ∨
      (img.mode = "P" ∧ img.infoHasTransparencyKey = true) := by
  unfold has_transparency
  by_cases hA : img.mode = "RGBA"
  · simp [hA, alphaExtremaMin_lt_iff]
  · by_cases hLA : img.mode = "LA"
    · simp [hLA, alphaExtremaMin_lt_iff]
    · by_cases hP : img.mode = "P"
      · simp [hA, hLA, hP]
      · simp [hA, hLA, hP]

/-! ### Claim C1 -/

/-- Claim C1: for every processed file the final output byte count is at
most the source byte count, and whenever the encoded artifact was larger
than the source the final output is byte-identical to the source file. -/
theorem C1_guard_output_never_larger (c : Codec) (dstDir : String)
    (quality : Int) (removeFails : Bool) (src : SrcFile) (r : FileResult)
    (h : processFile c dstDir quality removeFails src = .ok r) :
    r.outData.size ≤ src.content.size ∧
      (r.artifactData.size > src.content.size → r.outData = src.content) := by
  unfold processFile at h
  cases hI : src.content.image with
  | none => rw [hI] at h; simp at h
  | some img0 =>
    rw [hI] at h
    dsimp only at h
    split at h
    · simp at h
    · split at h
      · cases h
        exact ⟨Nat.le_refl _, fun _ => rfl⟩
      · next hle =>
          cases h
          exact ⟨Nat.le_of_not_lt hle, fun hgt => absurd hgt hle⟩

/-- The result of running the small codec on the sample `.jpg` file. -/
def c1Result : FileResult :=
  { artifactPath := "out/a.jpg",
    artifactData := { size := 1, image := none, mtime := 7 },
    outPath := "out/a.jpg",
    outData := { size := 1, image := none, mtime := 7 },
    removed := none, fallbackUsed := false }

/-- Witness for C1 at a concrete input. -/
theorem C1_guard_output_never_larger_witness :
    c1Result.outData.size ≤ sampleJpgFile.content.size ∧
      (c1Result.artifactData.size > sampleJpgFile.content.size →
        c1Result.outData = sampleJpgFile.content) :=
  C1_guard_output_never_larger smallCodec "out" 10 false sampleJpgFile
    c1Result rfl

/-! ### Claim C7 -/

/-- Claim C7: when the artifact is larger than the source, the Guard falls
back: the final output lands at the destination path bearing the source's
original filename, holds a byte-identical copy of the source with its
metadata (mtime) preserved, a renamed oversized artifact is removed when
removal succeeds, and a removal failure is swallowed (the copy still
happens and `removed` just stays empty). -/
theorem C7_guard_fallback_original_name (c : Codec) (dstDir : String)
    (quality : Int) (removeFails : Bool) (src : SrcFile) (r : FileResult)
    (h : processFile c dstDir quality removeFails src = .ok r)
    (hbig : r.artifactData.size > src.content.size) :
    r.outPath = dstDir ++ "/" ++ (src.base ++ src.ext) ∧
    r.outData = src.content ∧
    r.outData.mtime = src.content.mtime ∧
    r.fallbackUsed = true ∧
    (r.artifactPath ≠ r.outPath → removeFails = false →
      r.removed = some r.artifactPath) ∧
    (removeFails = true → r.removed = none) := by
  unfold processFile at h
  cases hI : src.content.image with
  | none => rw [hI] at h; simp at h
  | some img0 =>
    rw [hI] at h
    dsimp only at h
    split at h
    · simp at h
    · split at h
      · cases h
        refine ⟨rfl, rfl, rfl, rfl, ?_, ?_⟩
        · intro hne hrf
          subst hrf
          dsimp only at hne ⊢
          simp [bne_iff_ne, hne]
        · intro hrf
          subst hrf
          simp
      · next hle =>
          cases h
          exact absurd hbig hle

/-- The result of running the oversized codec on the opaque `.png`. -/
def c7Result : FileResult :=
  { artifactPath := "out/b.jpg",
    artifactData := { size := 1000, image := none, mtime := 9 },
    outPath := "out/b.png",
    outData := { size := 100, image := some sampleOpaqueAlphaImage,
                 mtime := 5 },
    removed := some "out/b.jpg", fallbackUsed := true }

/-- Witness for C7 at a concrete input: a 100-byte opaque `.png` whose
JPEG re-encode came out at 1000 bytes. -/
theorem C7_guard_fallback_original_name_witness :
    c7Result.outPath =
      "out" ++ "/" ++ (samplePngOpaqueFile.base ++ samplePngOpaqueFile.ext) ∧
    c7Result.outData = samplePngOpaqueFile.content ∧
    c7Result.outData.mtime = samplePngOpaqueFile.content.mtime ∧
    c7Result.fallbackUsed = true ∧
    (c7Result.artifactPath ≠ c7Result.outPath → false = false →
      c7Result.removed = some c7Result.artifactPath) ∧
    (false = true → c7Result.removed = none) :=
  C7_guard_fallback_original_name bigCodec "out" 10 false
    samplePngOpaqueFile c7Result rfl (by decide)

/-- The second conversion site (lines 60-62) computes exactly the
normalised mode. -/
theorem jpegConvertStep (img : PILImage) :
    (if (!modeIsRgbOrL img.mode) = true then convertRGB img else img) =
      toJpegMode img := by
  unfold toJpegMode
  cases h : modeIsRgbOrL img.mode <;> simp [h]

/-! ### Claim C5 -/

/-- Claim C5: a `.png` source whose transparency flag is false is routed
to the lossy container: the artifact is written under the same base name
with the `.jpg` extension, and the image handed to the JPEG encoder is the
source image converted to RGB, or the source unchanged when its mode is
the single-channel `"L"`. -/
theorem C5_opaque_png_routed_to_jpeg (c : Codec) (dstDir : String)
    (quality : Int) (removeFails : Bool) (src : SrcFile) (img0 : PILImage)
    (himg : src.content.image = some img0)
    (hext : strLower src.ext = ".png")
    (htr : has_transparency img0 = false) :
    (processFile c dstDir quality removeFails src).toOption.map
        (fun r => (r.artifactPath, r.artifactData)) =
      some (dstDir ++ "/" ++ src.base ++ ".jpg",
        c.jpegEncode (toJpegMode img0) quality true true
          img0.infoExif img0.infoIcc) ∧
    ((toJpegMode img0).mode = "RGB" ∨
      (img0.mode = "L" ∧ toJpegMode img0 = img0)) := by
  refine ⟨?_, toJpegMode_mode_cases img0⟩
  unfold processFile
  rw [himg]
  dsimp only
  rw [transcodePlan_opaque_png dstDir src img0 hext htr]
  simp only [modeIsRgbOrL_toJpegMode, Bool.not_true, Bool.and_false,
    Bool.false_eq_true, if_false, Bool.true_and, toJpegMode_infoExif,
    toJpegMode_infoIcc, if_true]
  split <;> rfl

/-- Witness for C5: the opaque-alpha `.png` sample under the small
codec. -/
theorem C5_opaque_png_routed_to_jpeg_witness :
    (processFile smallCodec "out" 10 false samplePngOpaqueFile).toOption.map
        (fun r => (r.artifactPath, r.artifactData)) =
      some ("out" ++ "/" ++ samplePngOpaqueFile.base ++ ".jpg",
        smallCodec.jpegEncode (toJpegMode sampleOpaqueAlphaImage) 10 true true
          sampleOpaqueAlphaImage.infoExif sampleOpaqueAlphaImage.infoIcc) ∧
    ((toJpegMode sampleOpaqueAlphaImage).mode = "RGB" ∨
      (sampleOpaqueAlphaImage.mode = "L" ∧
        toJpegMode sampleOpaqueAlphaImage = sampleOpaqueAlphaImage)) :=
  C5_opaque_png_routed_to_jpeg smallCodec "out" 10 false samplePngOpaqueFile
    sampleOpaqueAlphaImage rfl rfl rfl

/-! ### Claim C6 -/

/-- Claim C6: a `.png` source whose transparency flag is true keeps the
lossless container: the artifact is a PNG under the same base name,
re-encoded from the unchanged source image with `optimize` and the maximum
`compress_level` 9, and the final output (artifact, or the verbatim source
copy when the Guard fell back) decodes to the source image itself — so the
alpha channel is preserved bit-exact. -/
theorem C6_transparent_png_stays_png (c : Codec) (dstDir : String)
    (quality : Int) (removeFails : Bool) (src : SrcFile) (img0 : PILImage)
    (himg : src.content.image = some img0)
    (hext : strLower src.ext = ".png")
    (htr : has_transparency img0 = true) :
    (processFile c dstDir quality removeFails src).toOption.map
        (fun r => (r.artifactPath, r.artifactData, r.outData.image)) =
      some (dstDir ++ "/" ++ src.base ++ ".png",
        c.pngEncode img0 true 9, some img0) ∧
    ((processFile c dstDir quality removeFails src).toOption.map
        (fun r => r.outPath) = some (dstDir ++ "/" ++ src.base ++ ".png") ∨
     (processFile c dstDir quality removeFails src).toOption.map
        (fun r => r.outPath) =
          some (dstDir ++ "/" ++ (src.base ++ src.ext))) := by
  unfold processFile
  rw [himg]
  dsimp only
  rw [transcodePlan_png_transparent dstDir src img0 hext htr]
  simp only [Bool.false_and, Bool.false_eq_true, if_false, if_true]
  split
  · exact ⟨by simp [Except.toOption, himg], Or.inr (by simp [Except.toOption])⟩
  · exact ⟨by simp [Except.toOption, c.pngLossless],
      Or.inl (by simp [Except.toOption])⟩

/-- Witness for C6: the transparent `.png` sample under the small
codec. -/
theorem C6_transparent_png_stays_png_witness :
    (processFile smallCodec "out" 10 false samplePngTransparentFile).toOption.map
        (fun r => (r.artifactPath, r.artifactData, r.outData.image)) =
      some ("out" ++ "/" ++ samplePngTransparentFile.base ++ ".png",
        smallCodec.pngEncode sampleTransparentImage true 9,
        some sampleTransparentImage) ∧
    ((processFile smallCodec "out" 10 false samplePngTransparentFile).toOption.map
        (fun r => r.outPath) =
          some ("out" ++ "/" ++ samplePngTransparentFile.base ++ ".png") ∨
     (processFile smallCodec "out" 10 false samplePngTransparentFile).toOption.map
        (fun r => r.outPath) =
          some ("out" ++ "/" ++
            (samplePngTransparentFile.base ++ samplePngTransparentFile.ext))) :=
  C6_transparent_png_stays_png smallCodec "out" 10 false
    samplePngTransparentFile sampleTransparentImage rfl rfl rfl

/-! ### Claim C9 -/

/-- Claim C9: on every route into the lossy container (a `.jpg`/`.jpeg`
source, or a `.png` source without transparency) the encode succeeds and
the EXIF and ICC blobs handed to the JPEG encoder are exactly the source
image's blobs — present or absent alike, absence being no error. -/
theorem C9_exif_icc_passed_verbatim (c : Codec) (dstDir : String)
    (quality : Int) (removeFails : Bool) (src : SrcFile) (img0 : PILImage)
    (himg : src.content.image = some img0)
    (hroute : strLower src.ext = ".jpg" ∨ strLower src.ext = ".jpeg" ∨
      (strLower src.ext = ".png" ∧ has_transparency img0 = false)) :
    (processFile c dstDir quality removeFails src).toOption.map
        (fun r => r.artifactData) =
      some (c.jpegEncode (toJpegMode img0) quality true true
        img0.infoExif img0.infoIcc) := by
  have hjpeg : ∀ hext : strLower src.ext ≠ ".png",
      (strLower src.ext == ".jpg" || strLower src.ext == ".jpeg") = true →
      (processFile c dstDir quality removeFails src).toOption.map
          (fun r => r.artifactData) =
        some (c.jpegEncode (toJpegMode img0) quality true true
          img0.infoExif img0.infoIcc) := by
    intro hne hj
    unfold processFile
    rw [himg]
    dsimp only
    rw [transcodePlan_not_png dstDir src img0 hne]
    simp only [hj, Bool.true_and, if_true, Bool.false_eq_true, if_false,
      jpegConvertStep, toJpegMode_infoExif, toJpegMode_infoIcc]
    split <;> rfl
  rcases hroute with hext | hext | ⟨hext, htr⟩
  · exact hjpeg (by rw [hext]; decide) (by rw [hext]; decide)
  · exact hjpeg (by rw [hext]; decide) (by rw [hext]; decide)
  · unfold processFile
    rw [himg]
    dsimp only
    rw [transcodePlan_opaque_png dstDir src img0 hext htr]
    simp only [modeIsRgbOrL_toJpegMode, Bool.not_true, Bool.and_false,
      Bool.false_eq_true, if_false, Bool.true_and, toJpegMode_infoExif,
      toJpegMode_infoIcc, if_true]
    split <;> rfl

/-- Witness for C9: the `.jpg` sample (which carries an EXIF blob and no
ICC profile) under the small codec. -/
theorem C9_exif_icc_passed_verbatim_witness :
    (processFile smallCodec "out" 10 false sampleJpgFile).toOption.map
        (fun r => r.artifactData) =
      some (smallCodec.jpegEncode (toJpegMode sampleRgbImage) 10 true true
        sampleRgbImage.infoExif sampleRgbImage.infoIcc) :=
  C9_exif_icc_passed_verbatim smallCodec "out" 10 false sampleJpgFile
    sampleRgbImage rfl (Or.inl rfl)

/-! ### Claim C10 -/

/-- Claim C10: for a `.png` source with transparency the whole per-file
pipeline is independent of the quality parameter — two runs with any two
quality values produce the same result (same paths, same bytes), because
quality is only consulted by the JPEG encode. -/
theorem C10_transparent_png_quality_oblivious (c : Codec) (dstDir : String)
    (removeFails : Bool) (src : SrcFile) (img0 : PILImage) (q1 q2 : Int)
    (himg : src.content.image = some img0)
    (hext : strLower src.ext = ".png")
    (htr : has_transparency img0 = true) :
    processFile c dstDir q1 removeFails src =
      processFile c dstDir q2 removeFails src := by
  unfold processFile
  rw [himg]
  dsimp only
  rw [transcodePlan_png_transparent dstDir src img0 hext htr]
  simp

/-- Witness for C10: qualities 10 and 90 on the transparent `.png`
sample. -/
theorem C10_transparent_png_quality_oblivious_witness :
    processFile smallCodec "out" 10 false samplePngTransparentFile =
      processFile smallCodec "out" 90 false samplePngTransparentFile :=
  C10_transparent_png_quality_oblivious smallCodec "out" false
    samplePngTransparentFile sampleTransparentImage 10 90 rfl rfl rfl

/-- When the loop completes without an exception it made exactly one
`(1, total)` call per file. -/
theorem batchLoop_progress_replicate (c : Codec) (dstDir : String)
    (quality : Int) (removeFails : Bool) (total : Nat) (fs : List SrcFile)
    (h : (batchLoop c dstDir quality removeFails true total fs).2.2 = none) :
    (batchLoop c dstDir quality removeFails true total fs).1 =
      List.replicate fs.length (⟨1, total, true⟩ : ProgressCall) := by
  induction fs with
  | nil => rfl
  | cons f fs ih =>
    unfold batchLoop at h ⊢
    cases hpf : processFile c dstDir quality removeFails f with
    | error e => rw [hpf] at h; simp at h
    | ok r =>
      rw [hpf] at h
      dsimp only at h ⊢
      rw [ih h]
      simp [List.replicate_succ]

/-! ### Claim C8 -/

/-- Claim C8: a batch of n eligible files that completes invokes the
progress callback exactly n + 1 times — once with `(0, n)` before any
file, then once per file with `(1, n)`. -/
theorem C8_progress_called_filecount_plus_one (c : Codec) (dstDir : String)
    (quality : Int) (removeFails : Bool) (entries : List DirEntry)
    (h : (runBatch c dstDir quality removeFails true entries).error = none) :
    (runBatch c dstDir quality removeFails true entries).progress =
      ⟨0, (iterImages entries).length, false⟩ ::
        List.replicate (iterImages entries).length
          (⟨1, (iterImages entries).length, true⟩ : ProgressCall) ∧
    (runBatch c dstDir quality removeFails true entries).progress.length =
      (iterImages entries).length + 1 := by
  unfold runBatch at h ⊢
  dsimp only at h ⊢
  rw [batchLoop_progress_replicate c dstDir quality removeFails
    (iterImages entries).length (iterImages entries) h]
  constructor
  · simp
  · simp

/-- Witness for C8: a two-file batch (one `.jpg`, one transparent `.png`)
that completes. -/
theorem C8_progress_called_filecount_plus_one_witness :
    (runBatch smallCodec "out" 10 false true
        [⟨true, sampleJpgFile⟩, ⟨true, samplePngTransparentFile⟩]).progress =
      ⟨0, (iterImages [⟨true, sampleJpgFile⟩,
            ⟨true, samplePngTransparentFile⟩]).length, false⟩ ::
        List.replicate
          (iterImages [⟨true, sampleJpgFile⟩,
            ⟨true, samplePngTransparentFile⟩]).length
          (⟨1, (iterImages [⟨true, sampleJpgFile⟩,
            ⟨true, samplePngTransparentFile⟩]).length, true⟩ : ProgressCall) ∧
    (runBatch smallCodec "out" 10 false true
        [⟨true, sampleJpgFile⟩, ⟨true, samplePngTransparentFile⟩]).progress.length =
      (iterImages [⟨true, sampleJpgFile⟩,
        ⟨true, samplePngTransparentFile⟩]).length + 1 :=
  C8_progress_called_filecount_plus_one smallCodec "out" 10 false
    [⟨true, sampleJpgFile⟩, ⟨true, samplePngTransparentFile⟩] rfl

/-- Whichever way the Guard's size comparison goes, the per-file loop body
returns normally. -/
theorem ite_ok_exists (p : Prop) [Decidable p] (a b : FileResult) :
    ∃ r : FileResult,
      (if p then Except.ok a else Except.ok b : Except String FileResult) =
        .ok r := by
  split
  · exact ⟨a, rfl⟩
  · exact ⟨b, rfl⟩

/-- Per-file processing either always raises (with the file's name) or
always succeeds, regardless of the quality value: no quality validation
happens anywhere in the per-file pipeline. -/
theorem processFile_ok_or_error (c : Codec) (dstDir : String)
    (removeFails : Bool) (src : SrcFile) :
    (∀ q : Int, processFile c dstDir q removeFails src =
        .error (src.base ++ src.ext)) ∨
    (∀ q : Int, ∃ r, processFile c dstDir q removeFails src = .ok r) := by
  cases hI : src.content.image with
  | none =>
    left
    intro q
    unfold processFile
    rw [hI]
  | some img0 =>
    cases hp : (transcodePlan dstDir src img0).pngSaved
    · cases hj : (transcodePlan dstDir src img0).outIsJpeg
      · left
        intro q
        unfold processFile
        rw [hI]
        dsimp only
        simp [hp, hj]
      · right
        intro q
        unfold processFile
        rw [hI]
        dsimp only
        simp only [hp, hj, Bool.false_eq_true, if_false, if_true]
        exact ite_ok_exists _ _ _
    · right
      intro q
      unfold processFile
      rw [hI]
      dsimp only
      simp only [hp, if_true]
      exact ite_ok_exists _ _ _

/-- Whether the batch loop aborts, where it aborts, and how many files it
completes are all independent of the quality value. -/
theorem batchLoop_quality_independent_shape (c : Codec) (dstDir : String)
    (removeFails hasCb : Bool) (total : Nat) (q q' : Int)
    (fs : List SrcFile) :
    (batchLoop c dstDir q removeFails hasCb total fs).2.2 =
      (batchLoop c dstDir q' removeFails hasCb total fs).2.2 ∧
    (batchLoop c dstDir q removeFails hasCb total fs).2.1.length =
      (batchLoop c dstDir q' removeFails hasCb total fs).2.1.length := by
  induction fs with
  | nil => exact ⟨rfl, rfl⟩
  | cons f fs ih =>
    rcases processFile_ok_or_error c dstDir removeFails f with hE | hOk
    · unfold batchLoop
      rw [hE q, hE q']
      exact ⟨rfl, rfl⟩
    · obtain ⟨r, hr⟩ := hOk q
      obtain ⟨r', hr'⟩ := hOk q'
      unfold batchLoop
      rw [hr, hr']
      dsimp only
      exact ⟨ih.1, by rw [List.length_cons, List.length_cons, ih.2]⟩

/-! ### Claim C2 -/

/-- Counterexample to claim C2 as stated: the batch operation itself does
not reject an out-of-range quality.  Run through the CLI path
(`compress_dir`, which performs no validation) with quality 0 on a
one-file batch: no error is raised and the file is processed. -/
theorem C2_core_accepts_quality_zero :
    (compress_dir smallCodec "out" 0 false [⟨true, sampleJpgFile⟩]).error =
      none ∧
    (compress_dir smallCodec "out" 0 false
        [⟨true, sampleJpgFile⟩]).results.length = 1 :=
  ⟨rfl, rfl⟩

/-- Claim C2 (amended): only the GUI entry point validates quality — there
a value outside 1–95 (so 0, 96 and -1) is rejected before the batch is
started and 1 and 95 are accepted — while the core batch function (and so
the CLI path) performs no quality validation: it runs the batch for any
quality value, and whether it aborts, and how many files it completes, do
not depend on the quality. -/
theorem C2_quality_gate_only_in_gui (c : Codec) (dstDir : String)
    (removeFails : Bool) (entries : List DirEntry) (q q' : Int) :
    (guiRun c dstDir removeFails entries q = none ↔ q < 1 ∨ q > 95) ∧
    (compress_dir c dstDir q removeFails entries).error =
      (compress_dir c dstDir q' removeFails entries).error ∧
    (compress_dir c dstDir q removeFails entries).results.length =
      (compress_dir c dstDir q' removeFails entries).results.length := by
  refine ⟨?_, ?_, ?_⟩
  · unfold guiRun
    by_cases h : q < 1 ∨ q > 95
    · simp [h]
    · simp [h]
  · unfold compress_dir runBatch
    dsimp only
    exact (batchLoop_quality_independent_shape c dstDir removeFails false
      (iterImages entries).length q q' (iterImages entries)).1
  · unfold compress_dir runBatch
    dsimp only
    exact (batchLoop_quality_independent_shape c dstDir removeFails false
      (iterImages entries).length q q' (iterImages entries)).2

/-! ### Claim C3 -/

/-- Counterexample to claim C3 as stated: a batch of an undecodable file
followed by a perfectly good `.jpg` aborts at the bad file — the batch
reports a batch-level error and the good file is never processed, instead
of the bad file being skipped and the batch continuing. -/
theorem C3_bad_file_aborts_whole_batch :
    (runBatch smallCodec "out" 10 false true
        [⟨true, sampleBadFile⟩, ⟨true, sampleJpgFile⟩]).error =
      some "bad.png" ∧
    (runBatch smallCodec "out" 10 false true
        [⟨true, sampleBadFile⟩, ⟨true, sampleJpgFile⟩]).results = [] :=
  ⟨rfl, rfl⟩

/-- Every file the directory filter lets through has a recognised
extension. -/
theorem iterImages_recognized (entries : List DirEntry) (f : SrcFile)
    (hf : f ∈ iterImages entries) : recognizedExt f.ext = true := by
  unfold iterImages at hf
  obtain ⟨e, he, rfl⟩ := List.mem_map.mp hf
  have hkeep := (List.mem_filter.mp he).2
  simp only [Bool.and_eq_true] at hkeep
  exact hkeep.2

/-- The directory filter distributes over concatenated listings. -/
theorem iterImages_append (a b : List DirEntry) :
    iterImages (a ++ b) = iterImages a ++ iterImages b := by
  unfold iterImages
  rw [List.filter_append, List.map_append]

/-- A decodable source with a recognised extension always makes it through
the per-file loop body: every route of lines 50-74 writes an artifact, and
the Guard then returns one way or the other. -/
theorem processFile_ok_of_recognized (c : Codec) (dstDir : String)
    (quality : Int) (removeFails : Bool) (src : SrcFile)
    (hext : recognizedExt src.ext = true)
    (himg : src.content.image.isSome = true) :
    ∃ r, processFile c dstDir quality removeFails src = .ok r := by
  obtain ⟨img0, hI⟩ := Option.isSome_iff_exists.mp himg
  have hj : strLower src.ext ≠ ".png" →
      (strLower src.ext == ".jpg" || strLower src.ext == ".jpeg") = true →
      ∃ r, processFile c dstDir quality removeFails src = .ok r := by
    intro hne hjj
    unfold processFile
    rw [hI]
    dsimp only
    rw [transcodePlan_not_png dstDir src img0 hne]
    simp only [hjj, Bool.false_eq_true, if_false, if_true]
    exact ite_ok_exists _ _ _
  have hcases : strLower src.ext = ".jpg" ∨ strLower src.ext = ".jpeg" ∨
      strLower src.ext = ".png" := by
    unfold recognizedExt at hext
    simpa [Bool.or_eq_true, or_assoc] using hext
  rcases hcases with h | h | h
  · exact hj (by rw [h]; decide) (by rw [h]; decide)
  · exact hj (by rw [h]; decide) (by rw [h]; decide)
  · cases htr : has_transparency img0
    · unfold processFile
      rw [hI]
      dsimp only
      rw [transcodePlan_opaque_png dstDir src img0 h htr]
      simp only [modeIsRgbOrL_toJpegMode, Bool.not_true, Bool.and_false,
        Bool.false_eq_true, if_false, Bool.true_and, if_true]
      exact ite_ok_exists _ _ _
    · unfold processFile
      rw [hI]
      dsimp only
      rw [transcodePlan_png_transparent dstDir src img0 h htr]
      simp only [Bool.false_and, Bool.false_eq_true, if_false, if_true]
      exact ite_ok_exists _ _ _

/-- When every file of a prefix processes normally and then an undecodable
file is reached, the loop records exactly the prefix's results and stops
at the bad file with its name as the escaped error. -/
theorem batchLoop_abort_at_unreadable (c : Codec) (dstDir : String)
    (quality : Int) (removeFails hasCb : Bool) (total : Nat)
    (pre : List SrcFile) (bad : SrcFile) (rest : List SrcFile)
    (hpre : ∀ f ∈ pre, ∃ r, processFile c dstDir quality removeFails f = .ok r)
    (hbad : bad.content.image = none) :
    (batchLoop c dstDir quality removeFails hasCb total
        (pre ++ bad :: rest)).2.2 = some (bad.base ++ bad.ext) ∧
    (batchLoop c dstDir quality removeFails hasCb total
        (pre ++ bad :: rest)).2.1.length = pre.length := by
  induction pre with
  | nil =>
    have hpf : processFile c dstDir quality removeFails bad =
        .error (bad.base ++ bad.ext) := by
      unfold processFile
      rw [hbad]
    dsimp only [List.nil_append]
    unfold batchLoop
    rw [hpf]
    exact ⟨rfl, rfl⟩
  | cons f pre ih =>
    obtain ⟨r, hr⟩ := hpre f (List.mem_cons_self f pre)
    have ih' := ih (fun g hg => hpre g (List.mem_cons_of_mem f hg))
    dsimp only [List.cons_append]
    unfold batchLoop
    rw [hr]
    dsimp only
    exact ⟨ih'.1, by simp [ih'.2]⟩

/-- Claim C3 (amended): an undecodable source file is not skipped — the
exception from opening it escapes the per-file loop, so the batch aborts
at that file wherever it sits in the listing: the eligible files before it
are processed as usual (one result each), the batch surfaces a single
batch-level error carrying the bad file's name, and no file at or after it
produces a result. -/
theorem C3_unreadable_aborts_batch (c : Codec) (dstDir : String)
    (quality : Int) (removeFails hasCb : Bool) (pre : List DirEntry)
    (bad : DirEntry) (rest : List DirEntry)
    (hpre : ∀ f ∈ iterImages pre, f.content.image.isSome = true)
    (hfile : bad.isFile = true)
    (hext : recognizedExt bad.file.ext = true)
    (hbad : bad.file.content.image = none) :
    (runBatch c dstDir quality removeFails hasCb
        (pre ++ bad :: rest)).error =
      some (bad.file.base ++ bad.file.ext) ∧
    (runBatch c dstDir quality removeFails hasCb
        (pre ++ bad :: rest)).results.length = (iterImages pre).length := by
  have hfiles : iterImages (pre ++ bad :: rest) =
      iterImages pre ++ bad.file :: iterImages rest := by
    rw [iterImages_append]
    congr 1
    unfold iterImages
    simp [List.filter_cons, hfile, hext]
  have hok : ∀ f ∈ iterImages pre,
      ∃ r, processFile c dstDir quality removeFails f = .ok r :=
    fun f hf => processFile_ok_of_recognized c dstDir quality removeFails f
      (iterImages_recognized pre f hf) (hpre f hf)
  unfold runBatch
  rw [hfiles]
  dsimp only
  exact batchLoop_abort_at_unreadable c dstDir quality removeFails hasCb
    (iterImages pre ++ bad.file :: iterImages rest).length
    (iterImages pre) bad.file (iterImages rest) hok hbad

/-- Witness for the amended C3 at a concrete input: the undecodable
`bad.png` sits between a good `.jpg` (which is processed) and a good
`.png` (which never is). -/
theorem C3_unreadable_aborts_batch_witness :
    (runBatch smallCodec "out" 10 false true
        ([⟨true, sampleJpgFile⟩] ++
          ⟨true, sampleBadFile⟩ :: [⟨true, samplePngTransparentFile⟩])).error =
      some (sampleBadFile.base ++ sampleBadFile.ext) ∧
    (runBatch smallCodec "out" 10 false true
        ([⟨true, sampleJpgFile⟩] ++
          ⟨true, sampleBadFile⟩ :: [⟨true, samplePngTransparentFile⟩])).results.length =
      (iterImages [⟨true, sampleJpgFile⟩]).length :=
  C3_unreadable_aborts_batch smallCodec "out" 10 false true
    [⟨true, sampleJpgFile⟩] ⟨true, sampleBadFile⟩
    [⟨true, samplePngTransparentFile⟩] (by decide) rfl rfl rfl

end CompressJpegs
